import Mathlib

/-!
Shallow embedding of the bcoin PSBT codec: lib/psbt/psbt.js (the PSBT
envelope and the PSBTInput record), lib/psbt/common.js (constants),
psbt/output.js and psbt/path.js.  Bytes are modelled as lists of natural
numbers (each intended < 256); a buffer reader is a function from a byte
list to an error or a value paired with the remaining bytes; a buffer
writer is a byte list.  External collaborators (transaction / output /
witness codecs, secp256k1.publicKeyVerify, hash160) are parameters,
gathered in the `Collab` structure, exactly as the spec declares them out
of scope.  Errors are the assert message strings of the source.
-/

namespace Psbt

abbrev Bytes := List Nat

instance {ε α : Type} [DecidableEq ε] [DecidableEq α] : DecidableEq (Except ε α) := fun x y =>
  match x, y with
  | .error a, .error b =>
    match decEq a b with
    | isTrue h => isTrue (congrArg Except.error h)
    | isFalse h => isFalse fun hc => h (Except.error.inj hc)
  | .error _, .ok _ => isFalse fun hc => Except.noConfusion hc
  | .ok _, .error _ => isFalse fun hc => Except.noConfusion hc
  | .ok a, .ok b =>
    match decEq a b with
    | isTrue h => isTrue (congrArg Except.ok h)
    | isFalse h => isFalse fun hc => h (Except.ok.inj hc)

/-- PSBT magic number, from psbt/common.js. -/
def MAGIC : Nat := 0x70736274

/-- PSBT magic separator byte, from psbt/common.js. -/
def MAGIC_SEP : Nat := 0xff

/-- PSBT scope separator byte, from psbt/common.js. -/
def SEPARATOR : Nat := 0x00

namespace globalTypes

/-- Global field type 0x00, from psbt/common.js. -/
def UNSIGNED_TX : Nat := 0x00

end globalTypes

namespace inputTypes

/-- Input field type 0x00. -/
def NON_WITNESS_UTXO : Nat := 0x00

/-- Input field type 0x01. -/
def WITNESS_UTXO : Nat := 0x01

/-- Input field type 0x02. -/
def PARTIAL_SIG : Nat := 0x02

/-- Input field type 0x03. -/
def SIGHASH : Nat := 0x03

/-- Input field type 0x04. -/
def REDEEMSCRIPT : Nat := 0x04

/-- Input field type 0x05. -/
def WITNESSSCRIPT : Nat := 0x05

/-- Input field type 0x06. -/
def BIP32_DERIVATION : Nat := 0x06

/-- Input field type 0x07. -/
def SCRIPTSIG : Nat := 0x07

/-- Input field type 0x08. -/
def SCRIPTWITNESS : Nat := 0x08

end inputTypes

/-- bufio BufferReader.readU8. -/
def readU8 : Bytes → Except String (Nat × Bytes)
  | [] => .error "Out of bounds read (OOB)."
  | x :: r => .ok (x, r)

/-- bufio BufferReader.readBytes. -/
def readBytes (n : Nat) (b : Bytes) : Except String (Bytes × Bytes) :=
  if n ≤ b.length then .ok (b.take n, b.drop n) else .error "Out of bounds read (OOB)."

/-- bufio BufferReader.readU32 (little endian). -/
def readU32 : Bytes → Except String (Nat × Bytes)
  | a :: b :: c :: d :: r => .ok (a + 256 * (b + 256 * (c + 256 * d)), r)
  | _ => .error "Out of bounds read (OOB)."

/-- bufio BufferReader.readU32BE (big endian). -/
def readU32BE : Bytes → Except String (Nat × Bytes)
  | a :: b :: c :: d :: r => .ok (((a * 256 + b) * 256 + c) * 256 + d, r)
  | _ => .error "Out of bounds read (OOB)."

/-- Little-endian value of a byte list. -/
def leNum : Bytes → Nat
  | [] => 0
  | x :: r => x + 256 * leNum r

/-- bufio BufferReader.readVarint: the Bitcoin variable length integer,
with bufio's non-canonical-encoding rejection. -/
def readVarint : Bytes → Except String (Nat × Bytes)
  | [] => .error "Out of bounds read (OOB)."
  | t :: r =>
    if t < 0xfd then .ok (t, r)
    else if t = 0xfd then
      match r with
      | x :: y :: r2 =>
        if 0xfd ≤ x + 256 * y then .ok (x + 256 * y, r2)
        else .error "Non-canonical ReadVarint."
      | _ => .error "Out of bounds read (OOB)."
    else if t = 0xfe then
      match r with
      | a :: b :: c :: d :: r2 =>
        if 0xffff < a + 256 * (b + 256 * (c + 256 * d)) then
          .ok (a + 256 * (b + 256 * (c + 256 * d)), r2)
        else .error "Non-canonical ReadVarint."
      | _ => .error "Out of bounds read (OOB)."
    else
      match r with
      | a :: b :: c :: d :: e :: f :: g :: h :: r2 =>
        if 0xffffffff < leNum [a, b, c, d, e, f, g, h] then
          .ok (leNum [a, b, c, d, e, f, g, h], r2)
        else .error "Non-canonical ReadVarint."
      | _ => .error "Out of bounds read (OOB)."

/-- bufio BufferReader.readVarBytes: a varint length followed by that many
bytes. -/
def readVarBytes (b : Bytes) : Except String (Bytes × Bytes) :=
  match readVarint b with
  | .error e => .error e
  | .ok (n, r) => readBytes n r

/-- Little-endian bytes of a number, fixed width. -/
def toLE : Nat → Nat → Bytes
  | 0, _ => []
  | k + 1, n => n % 256 :: toLE k (n / 256)

/-- bufio BufferWriter.writeU32BE as a byte list. -/
def toBE4 (n : Nat) : Bytes :=
  [n / 16777216 % 256, n / 65536 % 256, n / 256 % 256, n % 256]

/-- bufio sizeVarint. -/
def sizeVarint (n : Nat) : Nat :=
  if n < 0xfd then 1 else if n ≤ 0xffff then 3 else if n ≤ 0xffffffff then 5 else 9

/-- bufio BufferWriter.writeVarint as a byte list. -/
def writeVarint (n : Nat) : Bytes :=
  if n < 0xfd then [n]
  else if n ≤ 0xffff then 0xfd :: toLE 2 n
  else if n ≤ 0xffffffff then 0xfe :: toLE 4 n
  else 0xff :: toLE 8 n

/-- bufio BufferWriter.writeVarBytes as a byte list. -/
def writeVarBytes (l : Bytes) : Bytes := writeVarint l.length ++ l

/-- buffer-map BufferMap.set: updating an existing key keeps its position
(JS Map semantics), a new key is appended in insertion order. -/
def mapSet {α : Type} : List (Bytes × α) → Bytes → α → List (Bytes × α)
  | [], k, v => [(k, v)]
  | (k2, v2) :: r, k, v => if k2 = k then (k2, v) :: r else (k2, v2) :: mapSet r k v

/-- buffer-map BufferMap.has. -/
def mapHas {α : Type} (m : List (Bytes × α)) (k : Bytes) : Bool :=
  m.any fun kv => kv.1 == k

/-- One input of the embedded transaction, carrying exactly the data the
PSBT code inspects: the raw script bytes and the witness stack items. -/
structure TxIn where
  script : Bytes
  witnessItems : List Bytes
deriving DecidableEq

/-- The embedded unsigned transaction (MTX): an external collaborator.
`raw` is its byte serialization (toRaw / toWriter output and getSize
length); `inputs` carries the per-input script and witness data inspected
by isTransactionUnsigned; `outputs` is the output count. -/
structure MTX where
  raw : Bytes
  inputs : List TxIn
  outputs : Nat
deriving DecidableEq

/-- psbt/path.js Path. -/
structure Path where
  masterFingerPrint : Nat
  indexes : List Nat
deriving DecidableEq

/-- psbt/output.js PSBTOutput: the source class holds no fields. -/
structure PSBTOutput where
deriving DecidableEq

/-- psbt/input.js PSBTInput.  Script-valued fields hold the raw bytes the
opaque Script/Witness/TX/Output containers were built from; the three maps
are insertion-ordered association lists keyed by byte strings, mirroring
BufferMap. -/
structure PSBTInput where
  tx : Option Bytes
  output : Option Bytes
  redeem : Option Bytes
  redeemWitness : Option Bytes
  script : Option Bytes
  witnessStack : Option Bytes
  hashType : Nat
  paths : List (Bytes × Path)
  signatures : List (Bytes × (Bytes × Bytes))
  unknown : List (Bytes × Bytes)
deriving DecidableEq

/-- psbt/psbt.js PSBT. -/
structure PSBT where
  inputs : List PSBTInput
  outputs : List PSBTOutput
  unknown : List (Bytes × Bytes)
  mtx : Option MTX
deriving DecidableEq

/-- The external collaborators the codec consumes: MTX.fromRaw,
TX.fromRaw, Output.fromRaw and Witness.fromRaw (each `none` models a parse
throw; for the last three the value is the container, kept as the bytes it
serializes back to), secp256k1.publicKeyVerify and hash160.digest. -/
structure Collab where
  mtxParse : Bytes → Option MTX
  txParse : Bytes → Option Bytes
  outParse : Bytes → Option Bytes
  witParse : Bytes → Option Bytes
  pkVerify : Bytes → Bool
  hash160 : Bytes → Bytes

/-- psbt/psbt.js isTransactionUnsigned: every input must carry an empty
script and an empty witness stack. -/
def isTransactionUnsigned (mtx : MTX) : Bool :=
  mtx.inputs.all fun i => i.script.length == 0 && i.witnessItems.length == 0

/-- psbt/path.js Path.write: big-endian fingerprint, then each index as a
little-endian uint32. -/
def Path.write (p : Path) : Bytes :=
  toBE4 p.masterFingerPrint ++ (p.indexes.map (toLE 4)).flatten

/-- psbt/path.js Path.read's index loop: readU32 while bytes remain. -/
def readIndexes : Bytes → Except String (List Nat)
  | [] => .ok []
  | a :: b :: c :: d :: r =>
    match readIndexes r with
    | .error e => .error e
    | .ok is => .ok ((a + 256 * (b + 256 * (c + 256 * d))) :: is)
  | _ => .error "Out of bounds read (OOB)."

/-- psbt/path.js Path.read (fromRaw): readU32BE fingerprint, then indexes
until the buffer is exhausted. -/
def Path.read (b : Bytes) : Except String Path :=
  match readU32BE b with
  | .error e => .error e
  | .ok (fp, r) =>
    match readIndexes r with
    | .error e => .error e
    | .ok is => .ok ⟨fp, is⟩

/-- Little-endian decimal digits of a nonzero number, with fuel (the
number itself is always enough fuel). -/
def natDigitsF : Nat → Nat → List Nat
  | 0, _ => []
  | fuel + 1, n => if n = 0 then [] else n % 10 :: natDigitsF fuel (n / 10)

/-- Decimal character codes of a number, most significant first. -/
def natChars (n : Nat) : List Nat :=
  if n = 0 then [48] else ((natDigitsF n n).map (fun d => 48 + d)).reverse

/-- Modelled from the spec: one segment of HDCommon.toPath
(lib/hd/common.js is not under src/).  A slash (code 47), then the decimal
index; an index with the high bit set is rendered without the high bit and
with a trailing apostrophe (code 39).  Strings are modelled as lists of
character codes. -/
def segChars (i : Nat) : List Nat :=
  47 :: (if i < 2147483648 then natChars i else natChars (i - 2147483648) ++ [39])

/-- Modelled from the spec: HDCommon.toPath (lib/hd/common.js is not under
src/), the m/a/b/c rendering used by Path.toPath, as character codes. -/
def toPath (indexes : List Nat) : List Nat :=
  109 :: (indexes.map segChars).flatten

/-- A decimal digit character code to its value. -/
def charDigit (ch : Nat) : Except String Nat :=
  if 48 ≤ ch ∧ ch ≤ 57 then .ok (ch - 48) else .error "Path contains a non-numeric segment."

/-- Accumulating decimal parse. -/
def parseDecAux : List Nat → Nat → Except String Nat
  | [], acc => .ok acc
  | ch :: r, acc =>
    match charDigit ch with
    | .error e => .error e
    | .ok d => parseDecAux r (acc * 10 + d)

/-- Decimal parse of a non-empty digit string. -/
def parseDec (cs : List Nat) : Except String Nat :=
  match cs with
  | [] => .error "Path contains an empty segment."
  | _ => parseDecAux cs 0

/-- Modelled from the spec: one segment of HDCommon.parsePath
(lib/hd/common.js is not under src/).  A trailing apostrophe (code 39)
marks a hardened index and adds the high bit; each index must fit in a
uint32. -/
def parseSeg (seg : List Nat) : Except String Nat :=
  if seg.getLast? = some 39 then
    match parseDec seg.dropLast with
    | .error e => .error e
    | .ok n => if n < 2147483648 then .ok (n + 2147483648) else .error "Path index out of range."
  else
    match parseDec seg with
    | .error e => .error e
    | .ok n => if n < 4294967296 then .ok n else .error "Path index out of range."

/-- Modelled from the spec: the segment loop of HDCommon.parsePath.  Each
step consumes one slash-led segment; the fuel is the remaining length plus
one, which every step strictly decreases below. -/
def parseSegsF : Nat → List Nat → Except String (List Nat)
  | 0, _ => .error "Out of fuel."
  | _ + 1, [] => .ok []
  | fuel + 1, 47 :: r =>
    match parseSeg (r.takeWhile (fun ch => ch != 47)) with
    | .error e => .error e
    | .ok i =>
      match parseSegsF fuel (r.dropWhile (fun ch => ch != 47)) with
      | .error e => .error e
      | .ok is => .ok (i :: is)
  | _, _ => .error "Malformed path."

/-- Modelled from the spec: HDCommon.parsePath (lib/hd/common.js is not
under src/), used by Path.fromString: the root must be the character m,
then slash-led decimal segments with an optional hardened apostrophe. -/
def parsePath (s : List Nat) : Except String (List Nat) :=
  match s with
  | 109 :: r => parseSegsF (r.length + 1) r
  | _ => .error "Path root must be m."

/-- psbt/input.js PSBTInput constructor: everything empty, hashType 0. -/
def PSBTInput.init : PSBTInput :=
  { tx := none, output := none, redeem := none, redeemWitness := none,
    script := none, witnessStack := none, hashType := 0,
    paths := [], signatures := [], unknown := [] }

/-- One dispatch step of PSBTInput.read: the switch on the first key byte.
Returns the updated record and the bytes remaining after the value, or the
assert message on failure. -/
def inputKeyCase (c : Collab) (s : PSBTInput) (key : Bytes) (t : Nat) (r : Bytes) :
    Except String (PSBTInput × Bytes) :=
  if t = 0 then
    if s.tx.isSome then .error "Duplicate Key, input non-witness utxo already provided."
    else
      match readVarBytes r with
      | .error e => .error e
      | .ok (rawTX, r2) =>
        match c.txParse rawTX with
        | none => .error "Invalid transaction."
        | some tx2 => .ok ({ s with tx := some tx2 }, r2)
  else if t = 1 then
    if s.output.isSome then .error "Duplicate Key, input witness utxo already provided."
    else
      match readVarBytes r with
      | .error e => .error e
      | .ok (rawOut, r2) =>
        match c.outParse rawOut with
        | none => .error "Invalid output."
        | some o => .ok ({ s with output := some o }, r2)
  else if t = 2 then
    if key.length = 34 ∨ key.length = 66 then
      if c.pkVerify (key.drop 1) then
        match readVarBytes r with
        | .error e => .error e
        | .ok (sigBytes, r2) =>
          .ok ({ s with
                  signatures := mapSet s.signatures (c.hash160 (key.drop 1))
                    (key.drop 1, sigBytes) }, r2)
      else .error "Invalid public key."
    else .error "Size of key was not the expected size for the type partial signature pubkey."
  else if t = 3 then
    if s.hashType = 0 then
      match readVarBytes r with
      | .error e => .error e
      | .ok (v, r2) =>
        if 4 ≤ v.length then .ok ({ s with hashType := leNum (v.take 4) }, r2)
        else .error "Out of bounds read (OOB)."
    else .error "Duplicate Key, input sighash type already provided."
  else if t = 4 then
    if s.redeem.isSome then .error "Duplicate Key, input redeemScript already provided."
    else
      match readVarBytes r with
      | .error e => .error e
      | .ok (rawScript, r2) => .ok ({ s with redeem := some rawScript }, r2)
  else if t = 5 then
    if s.redeemWitness.isSome then .error "Duplicate Key, input witnessScript already provided."
    else
      match readVarBytes r with
      | .error e => .error e
      | .ok (rawScript, r2) => .ok ({ s with redeemWitness := some rawScript }, r2)
  else if t = 6 then
    if c.pkVerify (key.drop 1) then
      match readVarBytes r with
      | .error e => .error e
      | .ok (rawPath, r2) =>
        match Path.read rawPath with
        | .error e => .error e
        | .ok p => .ok ({ s with paths := mapSet s.paths (c.hash160 (key.drop 1)) p }, r2)
    else .error "Invalid public key."
  else if t = 7 then
    if s.script.isSome then .error "Duplicate Key, input final scriptSig already provided."
    else
      match readVarBytes r with
      | .error e => .error e
      | .ok (rawScript, r2) => .ok ({ s with script := some rawScript }, r2)
  else if t = 8 then
    if s.witnessStack.isSome then .error "Duplicate Key, input final scriptWitness already provided."
    else
      match readVarBytes r with
      | .error e => .error e
      | .ok (rawStack, r2) =>
        match c.witParse rawStack with
        | none => .error "Invalid witness."
        | some w => .ok ({ s with witnessStack := some w }, r2)
  else
    if mapHas s.unknown key then .error "Duplicate Key, key for unknown value already provided."
    else
      match readVarBytes r with
      | .error e => .error e
      | .ok (v, r2) => .ok ({ s with unknown := mapSet s.unknown key v }, r2)

/-- psbt/input.js PSBTInput.read: the while loop over key/value records,
ended by an empty key or an exhausted buffer.  Fuel only needs to exceed
the byte count since every iteration consumes at least one byte. -/
def inputLoop (c : Collab) : Nat → PSBTInput → Bytes → Except String (PSBTInput × Bytes)
  | 0, _, _ => .error "Out of fuel."
  | fuel + 1, s, b =>
    if b = [] then .ok (s, b)
    else
      match readVarBytes b with
      | .error e => .error e
      | .ok ([], r) => .ok (s, r)
      | .ok (t :: k, r) =>
        match inputKeyCase c s (t :: k) t r with
        | .error e => .error e
        | .ok (s2, r2) => inputLoop c fuel s2 r2

/-- psbt/input.js PSBTInput.fromReader. -/
def PSBTInput.readFrom (c : Collab) (b : Bytes) : Except String (PSBTInput × Bytes) :=
  inputLoop c (b.length + 1) PSBTInput.init b

/-- psbt/input.js PSBTInput.write: the UTXO field, then, only when no
finalized script or witness stack is set, the signature entries followed
by a nonzero sighash type.  No other field is emitted (redeem handling is
an empty placeholder in the source). -/
def PSBTInput.write (i : PSBTInput) : Bytes :=
  (match i.tx, i.output with
   | some t, _ => writeVarint 1 ++ [inputTypes.NON_WITNESS_UTXO] ++ writeVarBytes t
   | none, some o => writeVarint 1 ++ [inputTypes.WITNESS_UTXO] ++ writeVarBytes o
   | none, none => [])
  ++ (if i.script.isNone && i.witnessStack.isNone then
        ((i.signatures.map fun kv =>
            writeVarint (kv.2.1.length + 1) ++ [inputTypes.PARTIAL_SIG] ++ kv.2.1
              ++ writeVarBytes kv.2.2).flatten)
        ++ (if 0 < i.hashType then
              writeVarint 1 ++ [inputTypes.SIGHASH] ++ writeVarint 4 ++ toLE 4 i.hashType
            else [])
      else [])

/-- psbt/input.js PSBTInput.getSize. -/
def PSBTInput.getSize (i : PSBTInput) : Nat :=
  (match i.tx, i.output with
   | some t, _ => 2 + sizeVarint t.length + t.length
   | none, some o => 2 + sizeVarint o.length + o.length
   | none, none => 0)
  + (if i.script.isNone && i.witnessStack.isNone then
       ((i.signatures.map fun kv =>
           sizeVarint (1 + kv.2.1.length) + (1 + kv.2.1.length)
             + sizeVarint kv.2.2.length + kv.2.2.length).sum)
       + (if 0 < i.hashType then 2 + 5 else 0)
     else 0)

/-- One dispatch step of the PSBT.read global loop: type 0x00 is the
unsigned transaction (with duplicate check and the unsigned-inputs check
right after parsing), anything else is an unknown field with a raw-key
duplicate check. -/
def globalKeyCase (c : Collab) (mo : Option MTX) (unk : List (Bytes × Bytes))
    (key : Bytes) (t : Nat) (r : Bytes) :
    Except String (Option MTX × List (Bytes × Bytes) × Bytes) :=
  if t = 0 then
    if mo.isSome then .error "Duplicate Key, unsigned tx already provided."
    else
      match readVarBytes r with
      | .error e => .error e
      | .ok (rawTX, r2) =>
        match c.mtxParse rawTX with
        | none => .error "Invalid transaction."
        | some m =>
          if isTransactionUnsigned m then .ok (some m, unk, r2)
          else .error "Unsigned tx does not have empty scriptSigs and scriptWitnesses."
  else
    if mapHas unk key then .error "Duplicate Key, key for unknown value already provided."
    else
      match readVarBytes r with
      | .error e => .error e
      | .ok (v, r2) => .ok (mo, mapSet unk key v, r2)

/-- psbt/psbt.js PSBT.read: the global-scope while loop. -/
def globalLoop (c : Collab) :
    Nat → Option MTX → List (Bytes × Bytes) → Bytes →
      Except String (Option MTX × List (Bytes × Bytes) × Bytes)
  | 0, _, _, _ => .error "Out of fuel."
  | fuel + 1, mo, unk, b =>
    if b = [] then .ok (mo, unk, b)
    else
      match readVarBytes b with
      | .error e => .error e
      | .ok ([], r) => .ok (mo, unk, r)
      | .ok (t :: k, r) =>
        match globalKeyCase c mo unk (t :: k) t r with
        | .error e => .error e
        | .ok (mo2, unk2, r2) => globalLoop c fuel mo2 unk2 r2

/-- psbt/psbt.js PSBT.read's input loop: exactly one PSBTInput record per
input of the embedded transaction. -/
def readNInputs (c : Collab) : Nat → Bytes → Except String (List PSBTInput × Bytes)
  | 0, b => .ok ([], b)
  | n + 1, b =>
    match PSBTInput.readFrom c b with
    | .error e => .error e
    | .ok (i, r) =>
      match readNInputs c n r with
      | .error e => .error e
      | .ok (is, r2) => .ok (i :: is, r2)

/-- psbt/psbt.js PSBT.read: magic framing, global scope, then one input
record per transaction input.  No output records are read and trailing
bytes are ignored, exactly as in the source. -/
def PSBT.read (c : Collab) (b : Bytes) : Except String PSBT :=
  match readU32BE b with
  | .error e => .error e
  | .ok (magic, r1) =>
    match readU8 r1 with
    | .error e => .error e
    | .ok (msep, r2) =>
      if magic = MAGIC ∧ msep = MAGIC_SEP then
        match globalLoop c (r2.length + 1) none [] r2 with
        | .error e => .error e
        | .ok (some m, unk, r3) =>
          match readNInputs c m.inputs.length r3 with
          | .error e => .error e
          | .ok (inps, _) => .ok { inputs := inps, outputs := [], unknown := unk, mtx := some m }
        | .ok (none, _, _) => .error "No unsigned transcation was provided."
      else .error "Invalid PSBT magic bytes."

/-- psbt/psbt.js PSBT.write, with the writer state made explicit: the
first component is the byte list accumulated when writing stops, the
second the assert message when it stops early.  The magic framing is
written before the missing-transaction assert fires, as in the source. -/
def PSBT.write (p : PSBT) : Bytes × Option String :=
  match p.mtx with
  | none => (toBE4 MAGIC ++ [MAGIC_SEP], some "Can not serialize PSBT without unsigned TX.")
  | some m =>
    (toBE4 MAGIC ++ [MAGIC_SEP]
      ++ writeVarint 1 ++ [globalTypes.UNSIGNED_TX] ++ writeVarint m.raw.length ++ m.raw
      ++ ((p.unknown.map fun kv => writeVarBytes kv.1 ++ writeVarBytes kv.2).flatten)
      ++ [SEPARATOR]
      ++ ((p.inputs.map fun i => i.write ++ [SEPARATOR]).flatten), none)

/-- psbt/psbt.js PSBT.getSize; `none` models the TypeError thrown when the
transaction is null.  Note the source counts each unknown key at half its
length (it divides by two); Nat division is used here, which agrees with
the source for even key lengths. -/
def PSBT.getSize (p : PSBT) : Option Nat :=
  match p.mtx with
  | none => none
  | some m =>
    some (5 + 2 + sizeVarint m.raw.length + m.raw.length
      + ((p.unknown.map fun kv =>
            sizeVarint (kv.1.length / 2) + kv.1.length / 2
              + sizeVarint kv.2.length + kv.2.length).sum)
      + 1
      + ((p.inputs.map fun i => i.getSize + 1).sum))

/-- psbt/input.js PSBTInput.merge: the source body is `return this` — it
combines nothing. -/
def PSBTInput.merge (a _other : PSBTInput) : PSBTInput := a

/-- psbt/psbt.js PSBT.merge: pair each input with its counterpart (assert
it exists) and call the per-input merge; outputs would hit a missing merge
method, but a decoded PSBT always has an empty output list. -/
def PSBT.merge (a b : PSBT) : Except String PSBT :=
  if a.inputs.length ≤ b.inputs.length then
    if a.outputs = [] then
      .ok { a with inputs := (a.inputs.zip b.inputs).map fun xy => xy.1.merge xy.2 }
    else if a.outputs.length ≤ b.outputs.length then
      .error "output.merge is not a function"
    else .error "Assertion failed."
  else .error "Assertion failed."

/-- psbt/input.js PSBTInput.isSane. -/
def PSBTInput.isSane (i : PSBTInput) : Bool :=
  if i.tx.isSome && i.output.isSome then false
  else if i.redeemWitness.isSome && !i.output.isSome then false
  else if i.witnessStack.isSome && !i.output.isSome then false
  else true

/-- A collaborator bundle whose parsers all fail and whose key predicate
rejects everything: used where no collaborator is exercised. -/
def trivialCollab : Collab :=
  ⟨fun _ => none, fun _ => none, fun _ => none, fun _ => none, fun _ => false, fun _ => []⟩

/-- A one-input, one-output unsigned transaction serializing to the single
byte 0xaa. -/
def c1mtx : MTX := ⟨[0xaa], [⟨[], []⟩], 1⟩

/-- A transaction codec recognizing exactly c1mtx. -/
def c1collab : Collab :=
  { trivialCollab with mtxParse := fun b => if b = [0xaa] then some c1mtx else none }

/-- A PSBT byte sequence: magic framing, the unsigned transaction 0xaa,
the global separator, then one input scope holding a single unknown field
(key 0xab, empty value) and its separator. -/
def c1bytes : Bytes := [0x70, 0x73, 0x62, 0x74, 0xff, 1, 0, 1, 0xaa, 0, 1, 0xab, 0, 0]

/-- The PSBT that c1bytes decodes to. -/
def c1psbt : PSBT :=
  ⟨[{ PSBTInput.init with unknown := [([0xab], [])] }], [], [], some c1mtx⟩

/-- A one-input PSBTInput holding one partial signature, keyed 0xa1. -/
def psbtInA : PSBTInput :=
  { PSBTInput.init with signatures := [([0xa1], ([0xa1], [0x51]))] }

/-- A one-input PSBTInput holding one partial signature, keyed 0xb2. -/
def psbtInB : PSBTInput :=
  { PSBTInput.init with signatures := [([0xb2], ([0xb2], [0x52]))] }

/-- The shared transaction of the two merge operands. -/
def mtxAB : MTX := ⟨[0xdd], [⟨[], []⟩], 1⟩

/-- Merge operand A: its single input is signed by the key hashed 0xa1. -/
def psbtA : PSBT := ⟨[psbtInA], [], [], some mtxAB⟩

/-- Merge operand B: its single input is signed by the key hashed 0xb2. -/
def psbtB : PSBT := ⟨[psbtInB], [], [], some mtxAB⟩

/-- A one-input, two-output unsigned transaction serializing to 0xcc. -/
def c3mtx : MTX := ⟨[0xcc], [⟨[], []⟩], 2⟩

/-- A transaction codec recognizing exactly c3mtx. -/
def c3collab : Collab :=
  { trivialCollab with mtxParse := fun b => if b = [0xcc] then some c3mtx else none }

/-- A PSBT byte sequence embedding the two-output transaction c3mtx,
followed by one empty input scope. -/
def c3bytes : Bytes := [0x70, 0x73, 0x62, 0x74, 0xff, 1, 0, 1, 0xcc, 0, 0]

/-- The PSBT that c3bytes decodes to. -/
def c3psbt : PSBT := ⟨[PSBTInput.init], [], [], some c3mtx⟩

/-- A collaborator bundle accepting every public key, hashing by identity:
the duplicate handling under test is independent of both. -/
def c4collab : Collab :=
  ⟨fun _ => none, fun _ => none, fun _ => none, fun _ => none, fun _ => true, fun b => b⟩

/-- A 33-byte compressed-size public key. -/
def c4pub : Bytes := List.replicate 33 7

/-- An input scope holding two partial-signature records for the same
public key (values 0x01 and 0x09), then the scope separator. -/
def c4bytes : Bytes :=
  writeVarBytes (2 :: c4pub) ++ writeVarBytes [1]
    ++ writeVarBytes (2 :: c4pub) ++ writeVarBytes [9] ++ [0]

/-- The record c4bytes decodes to: a single signature entry holding the
second value. -/
def c4input : PSBTInput :=
  { PSBTInput.init with signatures := [(c4pub, (c4pub, [9]))] }

/-- A transaction whose single input carries a non-empty script: not
unsigned. -/
def c5mtx : MTX := ⟨[0xbb], [⟨[0x51], []⟩], 1⟩

/-- A transaction codec recognizing exactly c5mtx. -/
def c5collab : Collab :=
  { trivialCollab with mtxParse := fun b => if b = [0xbb] then some c5mtx else none }

/-- A PSBT with no transaction, as freshly constructed. -/
def pNoTx : PSBT := ⟨[], [], [], none⟩

/-- A PSBT with the transaction c1mtx and one global unknown field with a
two-byte key. -/
def c10psbt : PSBT := ⟨[], [], [([1, 2], [3])], some c1mtx⟩

/-- A PSBTInput whose sighash type is already set (nonzero). -/
def sigHashSet : PSBTInput := { PSBTInput.init with hashType := 5 }

/-- A PSBT holding a transaction (one input, no signatures). -/
def pWithTx : PSBT := ⟨[], [], [], some ⟨[0xee], [⟨[], []⟩], 0⟩⟩

/-- A PSBTInput whose non-witness UTXO slot is already populated. -/
def txSet : PSBTInput := { PSBTInput.init with tx := some [0xee] }

/-!  Helper lemmas about the byte-level primitives. -/

theorem readVarint_writeVarint (n : Nat) (rest : Bytes) (h : n < 18446744073709551616) :
    readVarint (writeVarint n ++ rest) = .ok (n, rest) := by
  by_cases h1 : n < 0xfd
  · simp [writeVarint, readVarint, h1]
  · by_cases h2 : n ≤ 0xffff
    · have e : writeVarint n ++ rest = 0xfd :: n % 256 :: n / 256 % 256 :: rest := by
        simp [writeVarint, h1, h2, toLE]
      rw [e]
      have hv : n % 256 + 256 * (n / 256 % 256) = n := by omega
      simp [readVarint, hv]
      omega
    · by_cases h3 : n ≤ 0xffffffff
      · have e : writeVarint n ++ rest = 0xfe :: n % 256 :: n / 256 % 256 ::
            n / 256 / 256 % 256 :: n / 256 / 256 / 256 % 256 :: rest := by
          simp [writeVarint, h1, h2, h3, toLE]
        rw [e]
        have hv : n % 256 + 256 * (n / 256 % 256 + 256 * (n / 256 / 256 % 256
            + 256 * (n / 256 / 256 / 256 % 256))) = n := by omega
        simp [readVarint, hv]
        omega
      · have e : writeVarint n ++ rest = 0xff :: n % 256 :: n / 256 % 256 ::
            n / 256 / 256 % 256 :: n / 256 / 256 / 256 % 256 ::
            n / 256 / 256 / 256 / 256 % 256 :: n / 256 / 256 / 256 / 256 / 256 % 256 ::
            n / 256 / 256 / 256 / 256 / 256 / 256 % 256 ::
            n / 256 / 256 / 256 / 256 / 256 / 256 / 256 % 256 :: rest := by
          simp [writeVarint, h1, h2, h3, toLE]
        rw [e]
        have hv : leNum [n % 256, n / 256 % 256, n / 256 / 256 % 256,
            n / 256 / 256 / 256 % 256, n / 256 / 256 / 256 / 256 % 256,
            n / 256 / 256 / 256 / 256 / 256 % 256, n / 256 / 256 / 256 / 256 / 256 / 256 % 256,
            n / 256 / 256 / 256 / 256 / 256 / 256 / 256 % 256] = n := by
          simp only [leNum]
          omega
        simp [readVarint, hv]
        omega

theorem readBytes_append (l rest : Bytes) : readBytes l.length (l ++ rest) = .ok (l, rest) := by
  simp [readBytes, List.take_left, List.drop_left]

theorem readVarBytes_writeVarBytes (l rest : Bytes) (h : l.length < 18446744073709551616) :
    readVarBytes (writeVarBytes l ++ rest) = .ok (l, rest) := by
  unfold readVarBytes writeVarBytes
  rw [List.append_assoc, readVarint_writeVarint l.length (l ++ rest) h]
  exact readBytes_append l rest

theorem writeVarint_ne_nil (n : Nat) : writeVarint n ≠ [] := by
  unfold writeVarint
  split
  · simp
  · split
    · simp
    · split <;> simp

theorem inputLoop_step (c : Collab) (fuel : Nat) (s : PSBTInput) (t : Nat) (k rest : Bytes)
    (h : (t :: k).length < 18446744073709551616) :
    inputLoop c (fuel + 1) s (writeVarBytes (t :: k) ++ rest) =
      match inputKeyCase c s (t :: k) t rest with
      | .error e => .error e
      | .ok (s2, r2) => inputLoop c fuel s2 r2 := by
  have hne : writeVarBytes (t :: k) ++ rest ≠ [] := by
    unfold writeVarBytes
    rw [List.append_assoc]
    intro hc
    exact writeVarint_ne_nil _ (List.append_eq_nil.mp hc).1
  rw [inputLoop, if_neg hne, readVarBytes_writeVarBytes _ _ h]

theorem globalLoop_step (c : Collab) (fuel : Nat) (mo : Option MTX)
    (unk : List (Bytes × Bytes)) (t : Nat) (k rest : Bytes)
    (h : (t :: k).length < 18446744073709551616) :
    globalLoop c (fuel + 1) mo unk (writeVarBytes (t :: k) ++ rest) =
      match globalKeyCase c mo unk (t :: k) t rest with
      | .error e => .error e
      | .ok (mo2, unk2, r2) => globalLoop c fuel mo2 unk2 r2 := by
  have hne : writeVarBytes (t :: k) ++ rest ≠ [] := by
    unfold writeVarBytes
    rw [List.append_assoc]
    intro hc
    exact writeVarint_ne_nil _ (List.append_eq_nil.mp hc).1
  rw [globalLoop, if_neg hne, readVarBytes_writeVarBytes _ _ h]


theorem readU32BE_toBE4 (n : Nat) (rest : Bytes) (h : n < 4294967296) :
    readU32BE (toBE4 n ++ rest) = .ok (n, rest) := by
  simp [toBE4, readU32BE]
  omega

theorem readIndexes_flat (xs : List Nat) (h : ∀ x ∈ xs, x < 4294967296) :
    readIndexes ((xs.map (toLE 4)).flatten) = .ok xs := by
  induction xs with
  | nil => rfl
  | cons x xs ih =>
    have hx : x < 4294967296 := h x (List.mem_cons_self x xs)
    have ih2 := ih fun z hz => h z (List.mem_cons_of_mem x hz)
    simp only [List.map_cons, List.flatten_cons]
    have e : toLE 4 x ++ (xs.map (toLE 4)).flatten
        = x % 256 :: x / 256 % 256 :: x / 256 / 256 % 256 :: x / 256 / 256 / 256 % 256
            :: (xs.map (toLE 4)).flatten := by
      simp [toLE]
    rw [e]
    simp only [readIndexes, ih2]
    simp
    omega

theorem Path.read_write (p : Path) (hf : p.masterFingerPrint < 4294967296)
    (hxs : ∀ x ∈ p.indexes, x < 4294967296) :
    Path.read (Path.write p) = .ok p := by
  cases p with
  | mk fp xs =>
    simp only [Path.write, Path.read]
    rw [readU32BE_toBE4 fp _ hf]
    simp only [readIndexes_flat xs hxs]


theorem parseDecAux_append (l1 l2 : List Nat) (acc : Nat) :
    parseDecAux (l1 ++ l2) acc =
      match parseDecAux l1 acc with
      | .error e => .error e
      | .ok a => parseDecAux l2 a := by
  induction l1 generalizing acc with
  | nil => rfl
  | cons ch r ih =>
    simp only [List.cons_append, parseDecAux]
    cases charDigit ch with
    | error e => rfl
    | ok d => exact ih _

theorem natDigitsF_lt10 : ∀ fuel n d, d ∈ natDigitsF fuel n → d < 10 := by
  intro fuel
  induction fuel with
  | zero => intro n d hd; simp [natDigitsF] at hd
  | succ fuel ih =>
    intro n d hd
    by_cases hn : n = 0
    · simp [natDigitsF, hn] at hd
    · simp only [natDigitsF, if_neg hn, List.mem_cons] at hd
      rcases hd with h1 | h2
      · omega
      · exact ih _ _ h2

theorem parseDecAux_digits (fuel : Nat) :
    ∀ n acc, n ≤ fuel →
      parseDecAux (((natDigitsF fuel n).map (fun d => 48 + d)).reverse) acc =
        .ok (acc * 10 ^ (natDigitsF fuel n).length + n) := by
  induction fuel with
  | zero =>
    intro n acc hn
    have : n = 0 := by omega
    subst this
    simp [natDigitsF, parseDecAux]
  | succ fuel ih =>
    intro n acc hn
    by_cases hz : n = 0
    · subst hz
      simp [natDigitsF, parseDecAux]
    · have step : natDigitsF (fuel + 1) n = n % 10 :: natDigitsF fuel (n / 10) := by
        simp [natDigitsF, hz]
      rw [step]
      simp only [List.map_cons, List.reverse_cons]
      rw [parseDecAux_append]
      have hrec := ih (n / 10) acc (by omega)
      rw [hrec]
      have hd : charDigit (48 + n % 10) = .ok (n % 10) := by
        unfold charDigit
        rw [if_pos (by omega)]
        congr 1
        omega
      simp only [parseDecAux, hd]
      congr 1
      rw [List.length_cons, pow_succ]
      generalize 10 ^ (natDigitsF fuel (n / 10)).length = K
      have h1 : (acc * K + n / 10) * 10 + n % 10 = acc * K * 10 + (10 * (n / 10) + n % 10) := by
        ring
      have h2 : acc * (K * 10) = acc * K * 10 := by ring
      rw [h1, h2, Nat.div_add_mod]

theorem parseDec_natChars (n : Nat) : parseDec (natChars n) = .ok n := by
  by_cases hz : n = 0
  · subst hz; decide
  · have hd := parseDecAux_digits n n 0 (le_refl n)
    have hne : ((natDigitsF n n).map (fun d => 48 + d)).reverse ≠ [] := by
      cases hn : n with
      | zero => exact absurd hn hz
      | succ m =>
        simp [natDigitsF]
    obtain ⟨a, l, hl⟩ := List.exists_cons_of_ne_nil hne
    have e : parseDec (((natDigitsF n n).map (fun d => 48 + d)).reverse)
        = parseDecAux (((natDigitsF n n).map (fun d => 48 + d)).reverse) 0 := by
      rw [hl]; rfl
    rw [natChars, if_neg hz, e, hd]
    simp

theorem natChars_range (n : Nat) : ∀ ch ∈ natChars n, 48 ≤ ch ∧ ch ≤ 57 := by
  intro ch hch
  unfold natChars at hch
  by_cases hz : n = 0
  · rw [if_pos hz] at hch
    simp at hch
    omega
  · rw [if_neg hz] at hch
    simp only [List.mem_reverse, List.mem_map] at hch
    obtain ⟨d, hd, rfl⟩ := hch
    have := natDigitsF_lt10 n n d hd
    omega

theorem natChars_ne_nil (n : Nat) : natChars n ≠ [] := by
  unfold natChars
  by_cases hz : n = 0
  · simp [hz]
  · rw [if_neg hz]
    cases hn : n with
    | zero => exact absurd hn hz
    | succ m => simp [natDigitsF]


theorem split_at_slash (body rest2 : List Nat) (hb : ∀ ch ∈ body, ch ≠ 47)
    (hr : rest2 = [] ∨ ∃ tl, rest2 = 47 :: tl) :
    (body ++ rest2).takeWhile (fun ch => ch != 47) = body
    ∧ (body ++ rest2).dropWhile (fun ch => ch != 47) = rest2 := by
  induction body with
  | nil =>
    rcases hr with h | ⟨tl, h⟩ <;> subst h
    · exact ⟨rfl, rfl⟩
    · constructor <;> simp [List.takeWhile, List.dropWhile]
  | cons x xs ih =>
    have hx : (x != 47) = true := by
      have := hb x (by simp)
      simp [this]
    have ih2 := ih (fun ch hch => hb ch (by simp [hch]))
    constructor
    · simp only [List.cons_append, List.takeWhile_cons, hx, if_true, ih2.1]
    · simp only [List.cons_append, List.dropWhile_cons, hx, if_true, ih2.2]

theorem segBody_no_slash (i : Nat) :
    ∀ ch ∈ (if i < 2147483648 then natChars i else natChars (i - 2147483648) ++ [39]),
      ch ≠ 47 := by
  intro ch hch
  split at hch
  · have := natChars_range i ch hch
    omega
  · simp only [List.mem_append, List.mem_singleton] at hch
    rcases hch with h | h
    · have := natChars_range _ ch h
      omega
    · omega

theorem parseSeg_segBody (i : Nat) (h : i < 4294967296) :
    parseSeg (if i < 2147483648 then natChars i else natChars (i - 2147483648) ++ [39])
      = .ok i := by
  split
  next hlt =>
    have hlast : (natChars i).getLast? ≠ some 39 := by
      intro hc
      have hmem : 39 ∈ natChars i := by
        obtain ⟨hne, heq⟩ := List.mem_getLast?_eq_getLast (Option.mem_def.mpr hc)
        rw [heq]
        exact List.getLast_mem hne
      have := natChars_range i 39 hmem
      omega
    unfold parseSeg
    rw [if_neg hlast, parseDec_natChars]
    show (if i < 4294967296 then (Except.ok i : Except String Nat)
      else .error "Path index out of range.") = .ok i
    rw [if_pos h]
  next hge =>
    unfold parseSeg
    rw [if_pos (List.getLast?_concat _), List.dropLast_concat, parseDec_natChars]
    show (if i - 2147483648 < 2147483648
        then (Except.ok (i - 2147483648 + 2147483648) : Except String Nat)
        else .error "Path index out of range.") = .ok i
    rw [if_pos (by omega)]
    congr 1
    omega

theorem parseSegsF_flat (xs : List Nat) :
    ∀ fuel, xs.length < fuel → (∀ x ∈ xs, x < 4294967296) →
      parseSegsF fuel ((xs.map segChars).flatten) = .ok xs := by
  induction xs with
  | nil =>
    intro fuel hf _
    cases fuel with
    | zero => omega
    | succ f => rfl
  | cons x xs ih =>
    intro fuel hf hb
    simp only [List.length_cons] at hf
    cases fuel with
    | zero => omega
    | succ f =>
      have hx : x < 4294967296 := hb x (List.mem_cons_self x xs)
      simp only [List.map_cons, List.flatten_cons, segChars, List.cons_append]
      simp only [parseSegsF]
      have hsplit := split_at_slash
        (if x < 2147483648 then natChars x else natChars (x - 2147483648) ++ [39])
        ((xs.map segChars).flatten) (segBody_no_slash x) ?hr
      case hr =>
        cases xs with
        | nil => left; rfl
        | cons y ys =>
          right
          refine ⟨(if y < 2147483648 then natChars y else natChars (y - 2147483648) ++ [39])
            ++ ((ys.map segChars).flatten), ?_⟩
          simp [segChars]
      rw [hsplit.1, hsplit.2, parseSeg_segBody x hx,
        ih f (by omega) fun z hz => hb z (List.mem_cons_of_mem x hz)]

theorem flatten_segChars_len (xs : List Nat) :
    xs.length ≤ ((xs.map segChars).flatten).length := by
  induction xs with
  | nil => simp
  | cons x xs ih =>
    simp only [List.map_cons, List.flatten_cons, List.length_append, List.length_cons]
    have : 1 ≤ (segChars x).length := by simp [segChars]
    omega

theorem parsePath_toPath (xs : List Nat) (h : ∀ x ∈ xs, x < 4294967296) :
    parsePath (toPath xs) = .ok xs := by
  unfold toPath parsePath
  exact parseSegsF_flat xs _ (by have := flatten_segChars_len xs; omega) h


theorem globalKeyCase_unsigned (c : Collab) (mo : Option MTX) (unk : List (Bytes × Bytes))
    (key : Bytes) (t : Nat) (r : Bytes) (res : Option MTX × List (Bytes × Bytes) × Bytes)
    (h : globalKeyCase c mo unk key t r = .ok res)
    (hinv : ∀ m, mo = some m → isTransactionUnsigned m = true) :
    ∀ m, res.1 = some m → isTransactionUnsigned m = true := by
  intro m hm
  unfold globalKeyCase at h
  split at h
  · split at h
    · exact absurd h (by simp)
    · split at h
      · exact absurd h (by simp)
      · split at h
        · exact absurd h (by simp)
        · split at h
          next hu =>
            rw [Except.ok.injEq] at h
            subst h
            simp only at hm
            injection hm with hm2
            rw [← hm2]
            exact hu
          · exact absurd h (by simp)
  · split at h
    · exact absurd h (by simp)
    · split at h
      · exact absurd h (by simp)
      · rw [Except.ok.injEq] at h
        subst h
        exact hinv m hm

theorem globalLoop_unsigned (c : Collab) :
    ∀ (fuel : Nat) (mo : Option MTX) (unk : List (Bytes × Bytes)) (b : Bytes)
      (res : Option MTX × List (Bytes × Bytes) × Bytes),
      globalLoop c fuel mo unk b = .ok res →
      (∀ m, mo = some m → isTransactionUnsigned m = true) →
      ∀ m, res.1 = some m → isTransactionUnsigned m = true := by
  intro fuel
  induction fuel with
  | zero =>
    intro mo unk b res h _
    exact absurd h (by simp [globalLoop])
  | succ fuel ih =>
    intro mo unk b res h hinv
    rw [globalLoop] at h
    split at h
    · rw [Except.ok.injEq] at h
      subst h
      exact hinv
    · split at h
      · exact absurd h (by simp)
      · rw [Except.ok.injEq] at h
        subst h
        exact hinv
      · split at h
        · exact absurd h (by simp)
        next mo2 unk2 r2 hcase =>
          exact ih mo2 unk2 r2 res h
            (globalKeyCase_unsigned c mo unk _ _ _ (mo2, unk2, r2) hcase hinv)

theorem read_ok_unsigned (c : Collab) (b : Bytes) (p : PSBT) (m : MTX)
    (h : PSBT.read c b = .ok p) (hm : p.mtx = some m) :
    isTransactionUnsigned m = true := by
  unfold PSBT.read at h
  split at h
  · exact absurd h (by simp)
  · split at h
    · exact absurd h (by simp)
    · split at h
      · split at h
        · exact absurd h (by simp)
        next m2 unk r3 hloop =>
          split at h
          · exact absurd h (by simp)
          · rw [Except.ok.injEq] at h
            subst h
            simp only at hm
            have := globalLoop_unsigned c _ none [] _ _ hloop
              (fun m hm2 => by cases hm2) m
            apply this
            simp only
            injection hm with hm2
            rw [hm2]
        · exact absurd h (by simp)
      · exact absurd h (by simp)


/-- Claim C1: for every byte sequence accepted by PSBT.read, re-encoding
with PSBT.write yields the same bytes.  The code refutes this: c1bytes
decodes successfully, but PSBTInput.write emits no input unknown field,
so re-encoding drops the record and produces different bytes. -/
theorem C1_roundtrip_failure :
    PSBT.read c1collab c1bytes = .ok c1psbt
    ∧ (PSBT.write c1psbt).2 = none
    ∧ (PSBT.write c1psbt).1 ≠ c1bytes :=
  ⟨by decide, by decide, by decide⟩

/-- Claim C2: merging is claimed to union the per-input signature maps.
The code refutes this: PSBTInput.merge is a stub, so A.merge(B) returns A
unchanged and A's first input still lacks B's signature (keyed 0xb2). -/
theorem C2_merge_noop :
    PSBT.merge psbtA psbtB = .ok psbtA
    ∧ (psbtA.inputs.map fun i => mapHas i.signatures [0xb2]) = [false] :=
  ⟨by decide, by decide⟩

/-- Claim C3: the decoder is claimed to consume one output record per
transaction output.  The code refutes this: c3bytes embeds a two-output
transaction and decodes successfully, yet the decoded PSBT holds zero
output records. -/
theorem C3_outputs_not_decoded :
    PSBT.read c3collab c3bytes = .ok c3psbt
    ∧ c3psbt.mtx = some c3mtx
    ∧ c3mtx.outputs = 2
    ∧ c3psbt.outputs.length = 0 :=
  ⟨by decide, by decide, by decide, by decide⟩

/-- Claim C6: PSBTInput.isSane returns false exactly when both UTXO kinds
are present, or a witness redeem script is present without a witness UTXO,
or a finalized witness stack is present without a witness UTXO.  It is a
pure Boolean function of the record (no mutation, no failure) by
construction. -/
theorem C6_isSane_iff (i : PSBTInput) :
    PSBTInput.isSane i = false ↔
      ((i.tx ≠ none ∧ i.output ≠ none)
        ∨ (i.redeemWitness ≠ none ∧ i.output = none)
        ∨ (i.witnessStack ≠ none ∧ i.output = none)) := by
  rcases i with ⟨tx, output, redeem, rdw, script, ws, ht, ps, sg, un⟩
  cases tx <;> cases output <;> cases rdw <;> cases ws <;>
    simp [PSBTInput.isSane]

/-- Claim C8 counterexample: the claim says a failing encode produces no
output bytes, but serializing a PSBT with no transaction fails only after
the five magic framing bytes have been written. -/
theorem C8_bytes_before_failure :
    (PSBT.write pNoTx).2 ≠ none ∧ (PSBT.write pNoTx).1 ≠ [] :=
  ⟨by decide, by decide⟩

/-- Claim C8 (amended): serializing a PSBT without a transaction fails
with the missing-transaction message, but only after the fixed 5-byte
magic framing has been written; when a transaction is present encoding
never fails. -/
theorem C8_write_failure (p : PSBT) :
    (p.mtx = none →
      PSBT.write p = ([0x70, 0x73, 0x62, 0x74, 0xff],
        some "Can not serialize PSBT without unsigned TX."))
    ∧ (p.mtx ≠ none → (PSBT.write p).2 = none) := by
  constructor
  · intro h
    unfold PSBT.write
    rw [h]
    rfl
  · intro h
    unfold PSBT.write
    cases hm : p.mtx with
    | none => exact absurd hm h
    | some m => rfl

/-- Claim C8 witness: the amended statement at a PSBT without and a PSBT
with a transaction. -/
theorem C8_write_failure_witness :
    PSBT.write pNoTx = ([0x70, 0x73, 0x62, 0x74, 0xff],
      some "Can not serialize PSBT without unsigned TX.")
    ∧ (PSBT.write pWithTx).2 = none :=
  ⟨(C8_write_failure pNoTx).1 (by decide), (C8_write_failure pWithTx).2 (by decide)⟩

/-- Claim C10: getSize is claimed to match the write length even with
global unknown fields.  The code refutes this: with one unknown entry
(key length 2, value length 1) getSize reports 14 while write emits 15
bytes, because getSize counts each unknown key at half its length. -/
theorem C10_getSize_mismatch :
    PSBT.getSize c10psbt = some 14
    ∧ (PSBT.write c10psbt).2 = none
    ∧ (PSBT.write c10psbt).1.length = 15 :=
  ⟨by decide, by decide, by decide⟩


/-- Claim C5: decoding never succeeds when the embedded transaction has a
non-empty input script or witness: (1) any successfully decoded PSBT's
transaction passes isTransactionUnsigned; (2) that predicate holds exactly
when every input has an empty script and empty witness stack; (3) the
check fires immediately in the unsigned-transaction branch of the global
loop, with the InvalidFieldCombination message, whenever the parsed
transaction is not unsigned. -/
theorem C5_unsigned_tx_check :
    (∀ (c : Collab) (b : Bytes) (p : PSBT) (m : MTX),
        PSBT.read c b = .ok p → p.mtx = some m → isTransactionUnsigned m = true)
    ∧ (∀ m : MTX, isTransactionUnsigned m = true ↔
        ∀ i ∈ m.inputs, i.script = [] ∧ i.witnessItems = [])
    ∧ (∀ (c : Collab) (fuel : Nat) (unk : List (Bytes × Bytes)) (raw rest : Bytes) (m : MTX),
        c.mtxParse raw = some m → isTransactionUnsigned m = false →
        raw.length < 18446744073709551616 →
        globalLoop c (fuel + 1) none unk ([1, 0] ++ (writeVarBytes raw ++ rest)) =
          .error "Unsigned tx does not have empty scriptSigs and scriptWitnesses.") := by
  refine ⟨read_ok_unsigned, ?_, ?_⟩
  · intro m
    simp [isTransactionUnsigned, List.all_eq_true, List.length_eq_zero]
  · intro c fuel unk raw rest m hparse hun hlen
    have e : ([1, 0] : Bytes) ++ (writeVarBytes raw ++ rest)
        = writeVarBytes [0] ++ (writeVarBytes raw ++ rest) := by
      have h0 : writeVarBytes [0] = [1, 0] := by decide
      rw [h0]
    rw [e, globalLoop_step c fuel none unk 0 [] _ (by decide)]
    have hkc : globalKeyCase c none unk [0] 0 (writeVarBytes raw ++ rest)
        = .error "Unsigned tx does not have empty scriptSigs and scriptWitnesses." := by
      unfold globalKeyCase
      rw [if_pos rfl, if_neg (by simp), readVarBytes_writeVarBytes _ _ hlen]
      show (match c.mtxParse raw with
        | none => (Except.error "Invalid transaction."
            : Except String (Option MTX × List (Bytes × Bytes) × Bytes))
        | some m2 =>
          if isTransactionUnsigned m2 then .ok (some m2, unk, rest)
          else .error "Unsigned tx does not have empty scriptSigs and scriptWitnesses.") = _
      rw [hparse]
      show (if isTransactionUnsigned m then (.ok (some m, unk, rest)
          : Except String (Option MTX × List (Bytes × Bytes) × Bytes))
        else .error "Unsigned tx does not have empty scriptSigs and scriptWitnesses.") = _
      rw [hun]
      simp
    rw [hkc]

/-- Claim C5 witness: the three parts at concrete inputs — the signedness
predicate on a transaction with a non-empty input script, the decode
consequence on the accepted c1bytes, and the in-loop error on a byte
sequence embedding that signed transaction. -/
theorem C5_unsigned_tx_check_witness :
    isTransactionUnsigned c1mtx = true
    ∧ (isTransactionUnsigned c5mtx = true ↔
        ∀ i ∈ c5mtx.inputs, i.script = [] ∧ i.witnessItems = [])
    ∧ globalLoop c5collab 1 none [] ([1, 0] ++ (writeVarBytes [0xbb] ++ [])) =
        .error "Unsigned tx does not have empty scriptSigs and scriptWitnesses." :=
  ⟨C5_unsigned_tx_check.1 c1collab c1bytes c1psbt c1mtx (by decide) (by decide),
   C5_unsigned_tx_check.2.1 c5mtx,
   C5_unsigned_tx_check.2.2 c5collab 0 [] [0xbb] [] c5mtx (by decide) (by decide) (by decide)⟩

/-- Claim C7: the Path binary codec round-trips (decode of encode recovers
the path, and the recovered path re-encodes to identical bytes), and the
string rendering of the index sequence parses back to exactly the same
indexes, for every uint32 fingerprint and uint32 index sequence. -/
theorem C7_path_roundtrip (f : Nat) (xs : List Nat) (hf : f < 4294967296)
    (hxs : ∀ x ∈ xs, x < 4294967296) :
    Path.read (Path.write ⟨f, xs⟩) = .ok ⟨f, xs⟩
    ∧ (∀ q, Path.read (Path.write ⟨f, xs⟩) = .ok q → Path.write q = Path.write ⟨f, xs⟩)
    ∧ parsePath (toPath xs) = .ok xs := by
  refine ⟨Path.read_write ⟨f, xs⟩ hf hxs, ?_, parsePath_toPath xs hxs⟩
  intro q hq
  rw [Path.read_write ⟨f, xs⟩ hf hxs] at hq
  injection hq with h2
  rw [← h2]

/-- Claim C7 witness: the round trips at fingerprint 0x01020304 and the
index sequence 0, 2147483655 (hardened 7), 44. -/
theorem C7_path_roundtrip_witness :
    Path.read (Path.write ⟨16909060, [0, 2147483655, 44]⟩)
      = .ok ⟨16909060, [0, 2147483655, 44]⟩
    ∧ parsePath (toPath [0, 2147483655, 44]) = .ok [0, 2147483655, 44] :=
  ⟨(C7_path_roundtrip 16909060 [0, 2147483655, 44] (by decide) (by decide)).1,
   (C7_path_roundtrip 16909060 [0, 2147483655, 44] (by decide) (by decide)).2.2⟩


/-- Claim C9: in the input loop a second SIGHASH record raises the
duplicate error exactly when the stored sighash value is nonzero; when the
stored value is zero the record is processed, and a record whose four-byte
value decodes to zero leaves the record state unchanged — indistinguishable
from carrying no SIGHASH record at all, so a later SIGHASH record in the
same scope is accepted. -/
theorem C9_sighash_sentinel (c : Collab) (fuel : Nat) (s : PSBTInput) (v rest : Bytes)
    (hv : v.length = 4) :
    (s.hashType ≠ 0 →
      inputLoop c (fuel + 1) s ([1, 3] ++ (writeVarBytes v ++ rest)) =
        .error "Duplicate Key, input sighash type already provided.")
    ∧ (s.hashType = 0 →
      inputLoop c (fuel + 1) s ([1, 3] ++ (writeVarBytes v ++ rest)) =
        inputLoop c fuel { s with hashType := leNum v } rest)
    ∧ (s.hashType = 0 → leNum v = 0 →
      inputLoop c (fuel + 1) s ([1, 3] ++ (writeVarBytes v ++ rest)) =
        inputLoop c fuel s rest) := by
  have e : ([1, 3] : Bytes) ++ (writeVarBytes v ++ rest)
      = writeVarBytes [3] ++ (writeVarBytes v ++ rest) := by
    have h3 : writeVarBytes [3] = [1, 3] := by decide
    rw [h3]
  have hstep := inputLoop_step c fuel s 3 [] (writeVarBytes v ++ rest) (by decide)
  have hacc : s.hashType = 0 →
      inputLoop c (fuel + 1) s ([1, 3] ++ (writeVarBytes v ++ rest)) =
        inputLoop c fuel { s with hashType := leNum v } rest := by
    intro h0
    rw [e, hstep]
    have hkc : inputKeyCase c s [3] 3 (writeVarBytes v ++ rest)
        = .ok ({ s with hashType := leNum v }, rest) := by
      unfold inputKeyCase
      rw [if_neg (by decide), if_neg (by decide), if_neg (by decide), if_pos rfl,
        if_pos h0, readVarBytes_writeVarBytes _ _ (by omega)]
      show (if 4 ≤ v.length then (.ok ({ s with hashType := leNum (v.take 4) }, rest)
          : Except String (PSBTInput × Bytes))
        else .error "Out of bounds read (OOB).") = _
      rw [if_pos (by omega), List.take_of_length_le (by omega)]
    rw [hkc]
  refine ⟨?_, hacc, ?_⟩
  · intro hne
    rw [e, hstep]
    have hkc : inputKeyCase c s [3] 3 (writeVarBytes v ++ rest)
        = .error "Duplicate Key, input sighash type already provided." := by
      unfold inputKeyCase
      rw [if_neg (by decide), if_neg (by decide), if_neg (by decide), if_pos rfl,
        if_neg hne]
    rw [hkc]
  · intro h0 hz
    rw [hacc h0, hz]
    have : { s with hashType := 0 } = s := by
      rw [← h0]
    rw [this]

/-- Claim C9 witness: with the sighash already 5 a SIGHASH record errors;
with it 0 a SIGHASH record whose value decodes to zero leaves the record
unchanged. -/
theorem C9_sighash_sentinel_witness :
    inputLoop trivialCollab 2 sigHashSet ([1, 3] ++ (writeVarBytes [0, 0, 0, 0] ++ [])) =
      .error "Duplicate Key, input sighash type already provided."
    ∧ inputLoop trivialCollab 2 PSBTInput.init ([1, 3] ++ (writeVarBytes [0, 0, 0, 0] ++ [])) =
        inputLoop trivialCollab 1 PSBTInput.init [] :=
  ⟨(C9_sighash_sentinel trivialCollab 1 sigHashSet [0, 0, 0, 0] [] (by decide)).1 (by decide),
   (C9_sighash_sentinel trivialCollab 1 PSBTInput.init [0, 0, 0, 0] [] (by decide)).2.2
     (by decide) (by decide)⟩


/-- Claim C4 counterexample: an input scope holding two partial-signature
records for the same public key decodes successfully — no DuplicateField
is raised; the second value silently overwrites the first. -/
theorem C4_sig_dup_accepted :
    PSBTInput.readFrom c4collab c4bytes = .ok (c4input, []) := by decide


/-- Claim C4 (amended): in a decoding scope the handlers for the
single-slot fields — non-witness UTXO, witness UTXO, sighash (when the
stored value is nonzero), redeem script, witness script, finalized script,
finalized witness stack, the global unsigned-transaction slot — and the
unknown-field handlers (input and global scope) fail with the duplicate
error when their slot or raw key is already populated; but a PARTIAL_SIG
or BIP32_DERIVATION record whose public key was already seen does not
fail: it is accepted and silently overwrites the stored entry. -/
theorem C4_duplicate_checks (c : Collab) (fuel : Nat) (s : PSBTInput) (rest : Bytes) :
    (s.tx ≠ none → inputLoop c (fuel + 1) s ([1, 0] ++ rest) =
      .error "Duplicate Key, input non-witness utxo already provided.")
    ∧ (s.output ≠ none → inputLoop c (fuel + 1) s ([1, 1] ++ rest) =
      .error "Duplicate Key, input witness utxo already provided.")
    ∧ (s.hashType ≠ 0 → inputLoop c (fuel + 1) s ([1, 3] ++ rest) =
      .error "Duplicate Key, input sighash type already provided.")
    ∧ (s.redeem ≠ none → inputLoop c (fuel + 1) s ([1, 4] ++ rest) =
      .error "Duplicate Key, input redeemScript already provided.")
    ∧ (s.redeemWitness ≠ none → inputLoop c (fuel + 1) s ([1, 5] ++ rest) =
      .error "Duplicate Key, input witnessScript already provided.")
    ∧ (s.script ≠ none → inputLoop c (fuel + 1) s ([1, 7] ++ rest) =
      .error "Duplicate Key, input final scriptSig already provided.")
    ∧ (s.witnessStack ≠ none → inputLoop c (fuel + 1) s ([1, 8] ++ rest) =
      .error "Duplicate Key, input final scriptWitness already provided.")
    ∧ (∀ t k, 9 ≤ t → (t :: k).length < 18446744073709551616 →
        mapHas s.unknown (t :: k) = true →
        inputLoop c (fuel + 1) s (writeVarBytes (t :: k) ++ rest) =
          .error "Duplicate Key, key for unknown value already provided.")
    ∧ (∀ pub sig, pub.length = 33 → c.pkVerify pub = true →
        sig.length < 18446744073709551616 →
        inputLoop c (fuel + 1) s (writeVarBytes (2 :: pub) ++ (writeVarBytes sig ++ rest)) =
          inputLoop c fuel
            { s with signatures := mapSet s.signatures (c.hash160 pub) (pub, sig) } rest)
    ∧ (∀ pub raw p2, c.pkVerify pub = true → Path.read raw = .ok p2 →
        pub.length < 18446744073709551615 → raw.length < 18446744073709551616 →
        inputLoop c (fuel + 1) s (writeVarBytes (6 :: pub) ++ (writeVarBytes raw ++ rest)) =
          inputLoop c fuel { s with paths := mapSet s.paths (c.hash160 pub) p2 } rest)
    ∧ (∀ (m : MTX) (unk : List (Bytes × Bytes)),
        globalLoop c (fuel + 1) (some m) unk ([1, 0] ++ rest) =
          .error "Duplicate Key, unsigned tx already provided.")
    ∧ (∀ (mo : Option MTX) (unk : List (Bytes × Bytes)) (t : Nat) (k : Bytes),
        1 ≤ t → (t :: k).length < 18446744073709551616 → mapHas unk (t :: k) = true →
        globalLoop c (fuel + 1) mo unk (writeVarBytes (t :: k) ++ rest) =
          .error "Duplicate Key, key for unknown value already provided.") := by
  have e0 : ([1, 0] : Bytes) ++ rest = writeVarBytes [0] ++ rest := by
    have h : writeVarBytes [0] = [1, 0] := by decide
    rw [h]
  have e1 : ([1, 1] : Bytes) ++ rest = writeVarBytes [1] ++ rest := by
    have h : writeVarBytes [1] = [1, 1] := by decide
    rw [h]
  have e3 : ([1, 3] : Bytes) ++ rest = writeVarBytes [3] ++ rest := by
    have h : writeVarBytes [3] = [1, 3] := by decide
    rw [h]
  have e4 : ([1, 4] : Bytes) ++ rest = writeVarBytes [4] ++ rest := by
    have h : writeVarBytes [4] = [1, 4] := by decide
    rw [h]
  have e5 : ([1, 5] : Bytes) ++ rest = writeVarBytes [5] ++ rest := by
    have h : writeVarBytes [5] = [1, 5] := by decide
    rw [h]
  have e7 : ([1, 7] : Bytes) ++ rest = writeVarBytes [7] ++ rest := by
    have h : writeVarBytes [7] = [1, 7] := by decide
    rw [h]
  have e8 : ([1, 8] : Bytes) ++ rest = writeVarBytes [8] ++ rest := by
    have h : writeVarBytes [8] = [1, 8] := by decide
    rw [h]
  refine ⟨?_, ?_, ?_, ?_, ?_, ?_, ?_, ?_, ?_, ?_, ?_, ?_⟩
  · intro h
    rw [e0, inputLoop_step c fuel s 0 [] rest (by decide)]
    have hkc : inputKeyCase c s [0] 0 rest =
        .error "Duplicate Key, input non-witness utxo already provided." := by
      unfold inputKeyCase
      rw [if_pos rfl, if_pos (Option.ne_none_iff_isSome.mp h)]
    rw [hkc]
  · intro h
    rw [e1, inputLoop_step c fuel s 1 [] rest (by decide)]
    have hkc : inputKeyCase c s [1] 1 rest =
        .error "Duplicate Key, input witness utxo already provided." := by
      unfold inputKeyCase
      rw [if_neg (by decide), if_pos rfl, if_pos (Option.ne_none_iff_isSome.mp h)]
    rw [hkc]
  · intro h
    rw [e3, inputLoop_step c fuel s 3 [] rest (by decide)]
    have hkc : inputKeyCase c s [3] 3 rest =
        .error "Duplicate Key, input sighash type already provided." := by
      unfold inputKeyCase
      rw [if_neg (by decide), if_neg (by decide), if_neg (by decide), if_pos rfl, if_neg h]
    rw [hkc]
  · intro h
    rw [e4, inputLoop_step c fuel s 4 [] rest (by decide)]
    have hkc : inputKeyCase c s [4] 4 rest =
        .error "Duplicate Key, input redeemScript already provided." := by
      unfold inputKeyCase
      rw [if_neg (by decide), if_neg (by decide), if_neg (by decide), if_neg (by decide),
        if_pos rfl, if_pos (Option.ne_none_iff_isSome.mp h)]
    rw [hkc]
  · intro h
    rw [e5, inputLoop_step c fuel s 5 [] rest (by decide)]
    have hkc : inputKeyCase c s [5] 5 rest =
        .error "Duplicate Key, input witnessScript already provided." := by
      unfold inputKeyCase
      rw [if_neg (by decide), if_neg (by decide), if_neg (by decide), if_neg (by decide),
        if_neg (by decide), if_pos rfl, if_pos (Option.ne_none_iff_isSome.mp h)]
    rw [hkc]
  · intro h
    rw [e7, inputLoop_step c fuel s 7 [] rest (by decide)]
    have hkc : inputKeyCase c s [7] 7 rest =
        .error "Duplicate Key, input final scriptSig already provided." := by
      unfold inputKeyCase
      rw [if_neg (by decide), if_neg (by decide), if_neg (by decide), if_neg (by decide),
        if_neg (by decide), if_neg (by decide), if_neg (by decide), if_pos rfl,
        if_pos (Option.ne_none_iff_isSome.mp h)]
    rw [hkc]
  · intro h
    rw [e8, inputLoop_step c fuel s 8 [] rest (by decide)]
    have hkc : inputKeyCase c s [8] 8 rest =
        .error "Duplicate Key, input final scriptWitness already provided." := by
      unfold inputKeyCase
      rw [if_neg (by decide), if_neg (by decide), if_neg (by decide), if_neg (by decide),
        if_neg (by decide), if_neg (by decide), if_neg (by decide), if_neg (by decide),
        if_pos rfl, if_pos (Option.ne_none_iff_isSome.mp h)]
    rw [hkc]
  · intro t k ht hlen hdup
    rw [inputLoop_step c fuel s t k rest hlen]
    have hkc : inputKeyCase c s (t :: k) t rest =
        .error "Duplicate Key, key for unknown value already provided." := by
      have hq0 : ¬ t = 0 := by omega
      have hq1 : ¬ t = 1 := by omega
      have hq2 : ¬ t = 2 := by omega
      have hq3 : ¬ t = 3 := by omega
      have hq4 : ¬ t = 4 := by omega
      have hq5 : ¬ t = 5 := by omega
      have hq6 : ¬ t = 6 := by omega
      have hq7 : ¬ t = 7 := by omega
      have hq8 : ¬ t = 8 := by omega
      unfold inputKeyCase
      rw [if_neg hq0, if_neg hq1, if_neg hq2, if_neg hq3, if_neg hq4,
        if_neg hq5, if_neg hq6, if_neg hq7, if_neg hq8, if_pos hdup]
    rw [hkc]
  · intro pub sig hpub hver hslen
    rw [inputLoop_step c fuel s 2 pub (writeVarBytes sig ++ rest) (by simp [hpub])]
    have hd1 : (2 :: pub : Bytes).drop 1 = pub := rfl
    have hkc : inputKeyCase c s (2 :: pub) 2 (writeVarBytes sig ++ rest) =
        .ok ({ s with signatures := mapSet s.signatures (c.hash160 pub) (pub, sig) }, rest) := by
      unfold inputKeyCase
      rw [if_neg (by decide), if_neg (by decide), if_pos rfl,
        if_pos (Or.inl (by simp [hpub])), hd1, if_pos hver,
        readVarBytes_writeVarBytes _ _ hslen]
    rw [hkc]
  · intro pub raw p2 hver hpr hpublen hrawlen
    rw [inputLoop_step c fuel s 6 pub (writeVarBytes raw ++ rest) (by simp; omega)]
    have hd1 : (6 :: pub : Bytes).drop 1 = pub := rfl
    have hkc : inputKeyCase c s (6 :: pub) 6 (writeVarBytes raw ++ rest) =
        .ok ({ s with paths := mapSet s.paths (c.hash160 pub) p2 }, rest) := by
      unfold inputKeyCase
      rw [if_neg (by decide), if_neg (by decide), if_neg (by decide), if_neg (by decide),
        if_neg (by decide), if_neg (by decide), if_pos rfl, hd1, if_pos hver,
        readVarBytes_writeVarBytes _ _ hrawlen]
      show (match Path.read raw with
        | .error e => (Except.error e : Except String (PSBTInput × Bytes))
        | .ok p => .ok ({ s with paths := mapSet s.paths (c.hash160 pub) p }, rest)) = _
      rw [hpr]
    rw [hkc]
  · intro m unk
    rw [e0, globalLoop_step c fuel (some m) unk 0 [] rest (by decide)]
    have hkc : globalKeyCase c (some m) unk [0] 0 rest =
        .error "Duplicate Key, unsigned tx already provided." := by
      unfold globalKeyCase
      rw [if_pos rfl, if_pos (by simp : (some m).isSome = true)]
    rw [hkc]
  · intro mo unk t k ht hlen hdup
    rw [globalLoop_step c fuel mo unk t k rest hlen]
    have hkc : globalKeyCase c mo unk (t :: k) t rest =
        .error "Duplicate Key, key for unknown value already provided." := by
      unfold globalKeyCase
      rw [if_neg (by omega), if_pos hdup]
    rw [hkc]


/-- Claim C4 witness: the amended statement at concrete inputs — a
populated non-witness-UTXO slot makes a second 0x00 record fail, while a
partial-signature record for an already-stored public key is accepted and
overwrites. -/
theorem C4_duplicate_checks_witness :
    inputLoop trivialCollab 1 txSet ([1, 0] ++ []) =
      .error "Duplicate Key, input non-witness utxo already provided."
    ∧ inputLoop c4collab 2 c4input (writeVarBytes (2 :: c4pub) ++ (writeVarBytes [1] ++ [])) =
        inputLoop c4collab 1
          { c4input with
              signatures := mapSet c4input.signatures (c4collab.hash160 c4pub) (c4pub, [1]) }
          [] :=
  ⟨(C4_duplicate_checks trivialCollab 0 txSet []).1 (by decide),
   (C4_duplicate_checks c4collab 1 c4input []).2.2.2.2.2.2.2.2.1 c4pub [1]
     (by decide) (by decide) (by decide)⟩

end Psbt
